import Mathlib

/-!
Verification of `monotonic_stm32l0.rs` (rtic-examples, `rtfm_v5/monotonic_stm32l0`):
a 32-bit monotonic timer built from the two linked 16-bit timers TIM2 (low half)
and TIM3 (high half) of an STM32L0 microcontroller.

Machine integers (`u32`, 16-bit counter registers) are embedded as `Nat` with
explicit reduction modulo `2 ^ 32` exactly where the Rust code uses wrapping
arithmetic; plain Rust `+` / `-` on unsigned integers (which traps on overflow)
is embedded as an `Option`-returning operation that is `none` on overflow, and
`assert!` failure is likewise embedded as `none`.
-/

namespace Stm32l0

/-- `2 ^ 32`, the modulus of `u32` arithmetic. -/
def U32MOD : Nat := 2 ^ 32

/-- One 16-bit hardware timer: its counter-enable bit `CR1.CEN` and its
counter register `CNT`. -/
structure TimerState where
  cen : Bool
  cnt : Nat
deriving DecidableEq, Repr

/-- The hardware state touched by `LinkedTim2Tim3::reset`: TIM3 is the
high (MSB) counter, TIM2 the low (LSB) counter. -/
structure HwState where
  tim3 : TimerState
  tim2 : TimerState
deriving DecidableEq, Repr

/-- Embedding of `LinkedTim2Tim3::reset` as a state transformer, register
write by register write, in the order the Rust source performs them:
pause MSB, pause LSB, reset the MSB counter, reset the MSB counter a second
time (the source writes `tim_msb.cnt.reset()` twice and never touches
`tim_lsb.cnt`), re-enable MSB, re-enable LSB. -/
def reset (s : HwState) : HwState :=
  let s1 : HwState := { s with tim3 := { s.tim3 with cen := false } }
  let s2 : HwState := { s1 with tim2 := { s1.tim2 with cen := false } }
  let s3 : HwState := { s2 with tim3 := { s2.tim3 with cnt := 0 } }
  let s4 : HwState := { s3 with tim3 := { s3.tim3 with cnt := 0 } }
  let s5 : HwState := { s4 with tim3 := { s4.tim3 with cen := true } }
  { s5 with tim2 := { s5.tim2 with cen := true } }

/-- A measurement of the counter (`Instant`): a `u32` tick count. -/
structure Instant where
  inner : Nat
deriving DecidableEq, Repr

/-- A span of time (`Duration`): a `u32` cycle count. -/
structure Duration where
  inner : Nat
deriving DecidableEq, Repr

/-- Embedding of the read loop of `Instant::now`, parameterised over the
values the hardware delivers: `readMsb n` (resp. `readLsb n`) is the value
the TIM3 (resp. TIM2) `CNT` register yields at the `n`-th register read.
Each loop iteration performs four reads in source order: `msb` at offset 0,
`lsb` at offset 1, the first (shadowed) `msb_again` at offset 2, and the
`msb_again` actually compared at offset 3; on `msb == msb_again` it returns
`(msb << 16) | lsb`, otherwise it loops. `fuel` bounds the number of
iterations so the function is total; `none` means the loop had not yet
returned within `fuel` iterations. -/
def nowLoop (readMsb readLsb : Nat → Nat) : Nat → Nat → Option Nat
  | 0, _ => none
  | fuel + 1, t =>
    let msb := readMsb t
    let lsb := readLsb (t + 1)
    let _msbAgainShadowed := readMsb (t + 2)
    let msbAgain := readMsb (t + 3)
    if msb = msbAgain then
      some ((msb <<< 16) ||| lsb)
    else
      nowLoop readMsb readLsb fuel (t + 4)

/-- Embedding of `Instant::duration_since`: `assert!(self.inner > earlier.inner)`
then `Duration { inner: self.inner - earlier.inner }`; the failed assertion is
embedded as `none`. -/
def Instant.duration_since (self earlier : Instant) : Option Duration :=
  if earlier.inner < self.inner then
    some { inner := self.inner - earlier.inner }
  else
    none

/-- Embedding of `impl ops::Sub for Instant`, which delegates to
`duration_since`. -/
def Instant.subInstant (self other : Instant) : Option Duration :=
  Instant.duration_since self other

/-- Embedding of `impl ops::AddAssign<Duration> for Instant` (and the `Add`
impl, which delegates to it): `self.inner.wrapping_add(dur.inner)`. -/
def Instant.addDuration (self : Instant) (dur : Duration) : Instant :=
  { inner := (self.inner + dur.inner) % U32MOD }

/-- Embedding of `impl ops::SubAssign<Duration> for Instant` (and the `Sub`
impl, which delegates to it): `self.inner.wrapping_sub(dur.inner)`, i.e.
subtraction modulo `2 ^ 32` (well-defined for `dur.inner < 2 ^ 32`). -/
def Instant.subDuration (self : Instant) (dur : Duration) : Instant :=
  { inner := (self.inner + (U32MOD - dur.inner)) % U32MOD }

/-- Embedding of `impl Ord for Instant`: raw comparison of the tick counts. -/
def Instant.cmp (self rhs : Instant) : Ordering :=
  compare self.inner rhs.inner

/-- Embedding of `impl PartialOrd for Instant`: `Some(self.cmp(rhs))`. -/
def Instant.partial_cmp (self rhs : Instant) : Option Ordering :=
  some (Instant.cmp self rhs)

/-- Embedding of `Duration::from_cycles`. -/
def Duration.from_cycles (cycles : Nat) : Duration :=
  { inner := cycles }

/-- Embedding of `Duration::as_cycles`. -/
def Duration.as_cycles (self : Duration) : Nat :=
  self.inner

/-- Embedding of `impl TryInto<u32> for Duration` with
`type Error = Infallible`: `Empty` plays the role of `Infallible`. -/
def Duration.tryIntoU32 (self : Duration) : Except Empty Nat :=
  Except.ok (Duration.as_cycles self)

/-- Embedding of `impl ops::AddAssign for Duration` (and the `Add` impl):
plain `self.inner + dur.inner` on `u32`, which is a trap on overflow, embedded
as `none` when the sum is not representable in 32 bits. -/
def Duration.add (self other : Duration) : Option Duration :=
  if self.inner + other.inner < U32MOD then
    some { inner := self.inner + other.inner }
  else
    none

/-- Concrete high-counter read sequence exercising the retry of the read
loop: the high counter advances from 1 to 2 between the first iteration's
surrounding reads, then stays at 2. -/
def msbReadsExample (n : Nat) : Nat :=
  if n < 3 then 1 else 2

/-- Concrete low-counter read sequence for the same scenario: the low counter
is seen at 65535 just before it wraps, then at 3 on the retry. -/
def lsbReadsExample (n : Nat) : Nat :=
  if n = 1 then 65535 else 3

/-- Embedding of `rtic::Fraction` (numerator and denominator, `u32`). -/
structure Fraction where
  numerator : Nat
  denominator : Nat
deriving DecidableEq, Repr

/-- Embedding of `LinkedTim2Tim3::ratio`: the constant fraction 1/1. -/
def ratio : Fraction :=
  { numerator := 1, denominator := 1 }

end Stm32l0

namespace Stm32l0

/-- C1: the claim says `reset()` clears both the high and the low counter to
zero; the code writes the high (TIM3) counter register twice and never writes
the low (TIM2) counter register. Evaluating `reset` at a state where the low
counter holds 5: afterwards the high counter is 0 but the low counter still
holds 5, so the low counter has not been written to zero. -/
theorem reset_leaves_low_counter_unchanged :
    (reset { tim3 := { cen := true, cnt := 7 }, tim2 := { cen := true, cnt := 5 } }).tim3.cnt = 0 ∧
    (reset { tim3 := { cen := true, cnt := 7 }, tim2 := { cen := true, cnt := 5 } }).tim2.cnt = 5 ∧
    (reset { tim3 := { cen := true, cnt := 7 }, tim2 := { cen := true, cnt := 5 } }).tim2.cnt ≠ 0 := by
  refine ⟨rfl, rfl, ?_⟩
  decide

/-- C3: `duration_since self earlier` fails (assertion, embedded as `none`)
exactly when `self.inner ≤ earlier.inner` (equality included), and otherwise
returns the duration with tick count `self.inner - earlier.inner`. -/
theorem duration_since_spec (self earlier : Instant) :
    (Instant.duration_since self earlier = none ↔ self.inner ≤ earlier.inner) ∧
    (earlier.inner < self.inner →
      Instant.duration_since self earlier =
        some { inner := self.inner - earlier.inner }) := by
  constructor
  · unfold Instant.duration_since
    by_cases h : earlier.inner < self.inner
    · simp only [h, if_true]
      constructor
      · intro hc
        exact absurd hc (by simp)
      · omega
    · simp only [h, if_false]
      constructor
      · intro _
        omega
      · intro _
        trivial
  · intro h
    unfold Instant.duration_since
    simp [h]

/-- Witness for C3 at concrete instants 9 and 4. -/
theorem duration_since_spec_witness :
    (Instant.duration_since { inner := 9 } { inner := 4 } = none ↔ (9 : Nat) ≤ 4) ∧
    ((4 : Nat) < 9 →
      Instant.duration_since { inner := 9 } { inner := 4 } = some { inner := 9 - 4 }) :=
  duration_since_spec { inner := 9 } { inner := 4 }

/-- C4 counterexample: the claim says `a - b` succeeds whenever
`a.inner ≥ b.inner`, including equality; but at `a = b = Instant 5` the
subtraction hits the failed assertion (embedded as `none`). -/
theorem sub_equal_instants_fails :
    Instant.subInstant { inner := 5 } { inner := 5 } = none := by
  decide

/-- C4 (amended): for all `a`, `b` with `a.inner > b.inner` (strictly), the
subtraction `a - b` succeeds and its cycle count is `a.inner - b.inner`. -/
theorem sub_instant_spec (a b : Instant) (h : b.inner < a.inner) :
    ∃ d : Duration, Instant.subInstant a b = some d ∧
      Duration.as_cycles d = a.inner - b.inner := by
  refine ⟨{ inner := a.inner - b.inner }, ?_, rfl⟩
  unfold Instant.subInstant Instant.duration_since
  simp [h]

/-- Witness for the amended C4 at instants 9 and 4. -/
theorem sub_instant_spec_witness :
    ∃ d : Duration, Instant.subInstant { inner := 9 } { inner := 4 } = some d ∧
      Duration.as_cycles d = 9 - 4 :=
  sub_instant_spec { inner := 9 } { inner := 4 } (by decide)

/-- C5: `Duration` addition never silently wraps: when the exact sum of the
cycle counts is representable in 32 bits the result is that exact sum, and
when it is not, the operation fails (`none`) rather than wrapping. -/
theorem duration_add_spec (d1 d2 : Duration) :
    (d1.as_cycles + d2.as_cycles < U32MOD →
      Duration.add d1 d2 = some { inner := d1.as_cycles + d2.as_cycles }) ∧
    (U32MOD ≤ d1.as_cycles + d2.as_cycles → Duration.add d1 d2 = none) := by
  constructor
  · intro h
    unfold Duration.add Duration.as_cycles
    simp only [Duration.as_cycles] at h
    simp [h]
  · intro h
    unfold Duration.add
    simp only [Duration.as_cycles] at h
    simp [Nat.not_lt_of_le h]

/-- Witness for C5 at concrete durations 3 and 4. -/
theorem duration_add_spec_witness :
    ((Duration.as_cycles { inner := 3 } + Duration.as_cycles { inner := 4 } < U32MOD →
      Duration.add { inner := 3 } { inner := 4 } =
        some { inner := Duration.as_cycles { inner := 3 } + Duration.as_cycles { inner := 4 } }) ∧
    (U32MOD ≤ Duration.as_cycles { inner := 3 } + Duration.as_cycles { inner := 4 } →
      Duration.add { inner := 3 } { inner := 4 } = none)) :=
  duration_add_spec { inner := 3 } { inner := 4 }

/-- C6: `Instant + Duration` and `Instant - Duration` (and the `+=`/`-=`
forms, which are the same code) are total and compute modulo `2 ^ 32`:
addition is the exact sum reduced mod `2 ^ 32`, and subtraction is the exact
difference when no borrow occurs and wraps past the `2 ^ 32` boundary
otherwise; both results stay in the `u32` range. -/
theorem instant_wrapping_arith (i : Instant) (d : Duration)
    (hi : i.inner < U32MOD) (hd : d.inner < U32MOD) :
    (Instant.addDuration i d).inner = (i.inner + d.inner) % U32MOD ∧
    (Instant.addDuration i d).inner < U32MOD ∧
    (Instant.subDuration i d).inner < U32MOD ∧
    (d.inner ≤ i.inner → (Instant.subDuration i d).inner = i.inner - d.inner) ∧
    (i.inner < d.inner → (Instant.subDuration i d).inner = U32MOD + i.inner - d.inner) := by
  have hM : U32MOD = 4294967296 := by norm_num [U32MOD]
  unfold Instant.addDuration Instant.subDuration
  rw [hM] at hi hd
  simp only [hM]
  refine ⟨trivial, ?_, ?_, ?_, ?_⟩
  · omega
  · omega
  · intro h
    omega
  · intro h
    omega

/-- Witness for C6 near the wrap boundary: instant `2 ^ 32 - 1` and duration 5. -/
theorem instant_wrapping_arith_witness :
    ((Instant.addDuration { inner := 4294967295 } { inner := 5 }).inner =
        (4294967295 + 5) % U32MOD ∧
      (Instant.addDuration { inner := 4294967295 } { inner := 5 }).inner < U32MOD ∧
      (Instant.subDuration { inner := 4294967295 } { inner := 5 }).inner < U32MOD ∧
      ((5 : Nat) ≤ 4294967295 →
        (Instant.subDuration { inner := 4294967295 } { inner := 5 }).inner = 4294967295 - 5) ∧
      ((4294967295 : Nat) < 5 →
        (Instant.subDuration { inner := 4294967295 } { inner := 5 }).inner =
          U32MOD + 4294967295 - 5)) :=
  instant_wrapping_arith { inner := 4294967295 } { inner := 5 }
    (by norm_num [U32MOD]) (by norm_num [U32MOD])

/-- C7: `from_cycles`/`as_cycles` is a lossless round trip, and the
`TryInto<u32>` conversion of a `Duration` is infallible: it always returns
`Ok` of the cycle count and can never return an error. -/
theorem duration_cycles_roundtrip :
    (∀ n : Nat, Duration.as_cycles (Duration.from_cycles n) = n) ∧
    (∀ d : Duration, Duration.tryIntoU32 d = Except.ok (Duration.as_cycles d)) ∧
    (∀ d : Duration, ∀ e : Empty, Duration.tryIntoU32 d ≠ Except.error e) := by
  refine ⟨fun n => rfl, fun d => rfl, fun d e => e.elim⟩

/-- C8: the order on `Instant` is exactly raw unsigned comparison of the tick
counts (`a < b` iff `a.inner < b.inner`, equality iff equal tick counts, and
`partial_cmp` always answers `some`), and it is total: any two instants are
strictly ordered or equal. In particular `Instant 5 < Instant 9`. -/
theorem instant_ord_spec :
    (∀ a b : Instant, Instant.cmp a b = Ordering.lt ↔ a.inner < b.inner) ∧
    (∀ a b : Instant, Instant.cmp a b = Ordering.eq ↔ a = b) ∧
    (∀ a b : Instant, Instant.partial_cmp a b = some (Instant.cmp a b)) ∧
    (∀ a b : Instant,
      Instant.cmp a b = Ordering.lt ∨ a = b ∨ Instant.cmp b a = Ordering.lt) ∧
    Instant.cmp { inner := 5 } { inner := 9 } = Ordering.lt := by
  have hlt : ∀ a b : Instant, Instant.cmp a b = Ordering.lt ↔ a.inner < b.inner := by
    intro a b
    unfold Instant.cmp
    exact Nat.compare_eq_lt
  refine ⟨hlt, ?_, fun a b => rfl, ?_, ?_⟩
  · intro a b
    unfold Instant.cmp
    rw [Nat.compare_eq_eq]
    constructor
    · intro h
      cases a
      cases b
      simp_all
    · intro h
      rw [h]
  · intro a b
    rcases Nat.lt_trichotomy a.inner b.inner with h | h | h
    · exact Or.inl ((hlt a b).mpr h)
    · refine Or.inr (Or.inl ?_)
      cases a
      cases b
      simp_all
    · exact Or.inr (Or.inr ((hlt b a).mpr h))
  · decide

/-- C9: `ratio()` is the constant identity fraction 1/1: the denominator is
at least 1 (no division by zero) and converting a tick count through the
ratio leaves it unchanged. -/
theorem ratio_spec :
    ratio.numerator = 1 ∧ ratio.denominator = 1 ∧ 1 ≤ ratio.denominator ∧
    (∀ n : Nat, n * ratio.numerator / ratio.denominator = n) := by
  refine ⟨rfl, rfl, by decide, fun n => by simp [ratio]⟩

/-- C10: wrapping `Instant` arithmetic round-trips with no precondition
beyond the `u32` range invariant on the stored tick counts: `(i + d) - d = i`
and `(i - d) + d = i`, even when the intermediate value wraps past `2 ^ 32`. -/
theorem instant_add_sub_roundtrip (i : Instant) (d : Duration)
    (hi : i.inner < U32MOD) (hd : d.inner < U32MOD) :
    Instant.subDuration (Instant.addDuration i d) d = i ∧
    Instant.addDuration (Instant.subDuration i d) d = i := by
  unfold Instant.addDuration Instant.subDuration
  cases i with
  | mk iv =>
    simp only [Instant.mk.injEq]
    constructor
    · rw [Nat.mod_add_mod]
      have e : iv + d.inner + (U32MOD - d.inner) = iv + U32MOD := by omega
      rw [e, Nat.add_mod_right]
      exact Nat.mod_eq_of_lt hi
    · rw [Nat.mod_add_mod]
      have e : iv + (U32MOD - d.inner) + d.inner = iv + U32MOD := by omega
      rw [e, Nat.add_mod_right]
      exact Nat.mod_eq_of_lt hi

/-- Witness for C10 at an instant and duration whose sum wraps: instant
`2 ^ 32 - 2` and duration 7. -/
theorem instant_add_sub_roundtrip_witness :
    (Instant.subDuration
        (Instant.addDuration { inner := 4294967294 } { inner := 7 }) { inner := 7 } =
      { inner := 4294967294 } ∧
    Instant.addDuration
        (Instant.subDuration { inner := 4294967294 } { inner := 7 }) { inner := 7 } =
      { inner := 4294967294 }) :=
  instant_add_sub_roundtrip { inner := 4294967294 } { inner := 7 }
    (by norm_num [U32MOD]) (by norm_num [U32MOD])

/-- C2: whenever the composite read loop of `Instant::now` returns a value
`v` (within any iteration bound, over any sequence of hardware reads), there
is an iteration `k` whose first high read (taken before the low read) equals
its last high read (taken after the low read), `v` is exactly that high value
shifted left 16 bits or-ed with the low value read between them, and every
earlier iteration's surrounding high reads differed (those samples were
discarded and the read restarted). -/
theorem now_composite (readMsb readLsb : Nat → Nat) (fuel t v : Nat)
    (h : nowLoop readMsb readLsb fuel t = some v) :
    ∃ k, k < fuel ∧
      readMsb (t + 4 * k) = readMsb (t + 4 * k + 3) ∧
      v = (readMsb (t + 4 * k) <<< 16) ||| readLsb (t + 4 * k + 1) ∧
      ∀ j, j < k → readMsb (t + 4 * j) ≠ readMsb (t + 4 * j + 3) := by
  induction fuel generalizing t with
  | zero =>
    simp [nowLoop] at h
  | succ n ih =>
    simp only [nowLoop] at h
    split at h
    · rename_i heq
      refine ⟨0, Nat.succ_pos n, ?_, ?_, ?_⟩
      · simpa using heq
      · simpa using (Option.some.inj h).symm
      · intro j hj
        exact absurd hj (Nat.not_lt_zero j)
    · rename_i hne
      obtain ⟨k, hk, h1, h2, h3⟩ := ih (t + 4) h
      refine ⟨k + 1, by omega, ?_, ?_, ?_⟩
      · have e1 : t + 4 * (k + 1) = t + 4 + 4 * k := by omega
        rw [e1]
        exact h1
      · have e1 : t + 4 * (k + 1) = t + 4 + 4 * k := by omega
        rw [e1]
        exact h2
      · intro j hj
        match j with
        | 0 =>
          simpa using hne
        | j' + 1 =>
          have e1 : t + 4 * (j' + 1) = t + 4 + 4 * j' := by omega
          rw [e1]
          exact h3 j' (by omega)

/-- Witness for C2 on the spec's retry scenario: the high counter steps from
1 to 2 during the first sample (so it is discarded) and the loop returns
`(2 <<< 16) ||| 3 = 131075` on the second, never pairing the stale low value
65535 with the new high value 2. -/
theorem now_composite_witness :
    ∃ k, k < 2 ∧
      msbReadsExample (0 + 4 * k) = msbReadsExample (0 + 4 * k + 3) ∧
      131075 = (msbReadsExample (0 + 4 * k) <<< 16) ||| lsbReadsExample (0 + 4 * k + 1) ∧
      ∀ j, j < k → msbReadsExample (0 + 4 * j) ≠ msbReadsExample (0 + 4 * j + 3) :=
  now_composite msbReadsExample lsbReadsExample 2 0 131075 (by decide)

end Stm32l0
